import Mathlib

/-!
Verification of the meme-coin aggregation service's merge-and-change-detection
pipeline (`src/services/token-service.ts` and collaborators), as a shallow
embedding in Lean 4.

Modelling conventions:
- TypeScript `number` fields are modelled as `ℚ` (the service computes exact
  decimal thresholds such as `0.001`; all arithmetic in the claims is exact).
- Optional numeric fields (`volume_1h?` etc., read back as `x || 0`) are
  `Option ℚ`, read with `.getD 0`.
- `timestamp` is the ISO-8601 string of the source, compared lexicographically
  exactly as the TypeScript `>` operator does.
- JavaScript's `Array.prototype.sort` (stable since ES2019) with comparator
  `key(b) - key(a)` is modelled as `List.mergeSort` with the boolean relation
  `key b ≤ key a` (a kept before b iff the comparator is ≤ 0).
- `Map.set` insertion (later entries overwrite earlier ones for the same key)
  is modelled by a left fold whose accumulator is replaced on every match, so
  lookups return the last record with the given address.
- Effects: fetch results are passed as explicit arguments, and cache writes
  are returned as an explicit trace (`CacheWrite` list); the `try/catch`
  around change comparison is modelled with `Except`.
-/

/-- The canonical token record, field for field after the `Token` interface in
`src/types/index.ts`. -/
structure Token where
  token_address : String
  token_name : String
  token_ticker : String
  price_sol : ℚ
  market_cap_sol : ℚ
  volume_1h : Option ℚ
  volume_24h : ℚ
  volume_7d : Option ℚ
  volume_sol : ℚ
  liquidity_sol : ℚ
  transaction_count_1h : Option ℚ
  transaction_count_24h : ℚ
  transaction_count_7d : Option ℚ
  transaction_count : ℚ
  price_1hr_change : ℚ
  price_24hr_change : Option ℚ
  price_7d_change : Option ℚ
  protocol : String
  timestamp : String
deriving Inhabited

/-- Time-window selector, after the `period` union type `'1h' | '24h' | '7d'`. -/
inductive Period where
  | h1
  | h24
  | d7
deriving DecidableEq

/-- Sort-key selector, after the `sortBy` union type. -/
inductive SortBy where
  | volume
  | price_change
  | market_cap
deriving DecidableEq

/-- Request filter specification, after the `TokenFilters` interface. -/
structure TokenFilters where
  period : Option Period := none
  sortBy : Option SortBy := none
  limit : Option Int := none
  cursor : Option String := none

/-- `TokenService.mergeTokenPair`: pairwise merge of a primary (DexScreener)
record with a secondary (GeckoTerminal) record. -/
def mergeTokenPair (dexToken geckoToken : Token) : Token :=
  let mergedVolume24h := dexToken.volume_24h + geckoToken.volume_24h
  let mergedTransactionCount24h :=
    dexToken.transaction_count_24h + geckoToken.transaction_count_24h
  { dexToken with
    price_sol := if geckoToken.price_sol > 0 then geckoToken.price_sol else dexToken.price_sol
    market_cap_sol := max dexToken.market_cap_sol geckoToken.market_cap_sol
    volume_24h := mergedVolume24h
    volume_sol := mergedVolume24h
    transaction_count_24h := mergedTransactionCount24h
    transaction_count := mergedTransactionCount24h
    liquidity_sol := max dexToken.liquidity_sol geckoToken.liquidity_sol
    timestamp :=
      if dexToken.timestamp < geckoToken.timestamp then geckoToken.timestamp
      else dexToken.timestamp
    protocol := dexToken.protocol ++ "+GeckoTerminal" }

/-- Lookup in the `Map` built by iterating `Map.set` over a record list: the
last record with the given address wins. -/
def mapLookup (l : List Token) (addr : String) : Option Token :=
  l.foldl (fun acc t => if t.token_address = addr then some t else acc) none

/-- `TokenService.mergeTokenData`: set-level merge, iterating the primary
records and consulting the secondary lookup map. -/
def mergeTokenData (dexTokens geckoTokens : List Token) : List Token :=
  dexTokens.map fun dexToken =>
    match mapLookup geckoTokens dexToken.token_address with
    | some geckoToken => mergeTokenPair dexToken geckoToken
    | none => dexToken

theorem mapLookup_foldl_eq_none (addr : String) (l : List Token) (acc : Option Token) :
    l.foldl (fun acc t => if t.token_address = addr then some t else acc) acc = none ↔
      acc = none ∧ ∀ t ∈ l, t.token_address ≠ addr := by
  induction l generalizing acc with
  | nil => simp
  | cons x xs ih =>
    simp only [List.foldl_cons, List.mem_cons]
    rw [ih]
    by_cases hx : x.token_address = addr
    · simp [hx]
    · simp only [hx, if_neg hx]
      constructor
      · rintro ⟨h1, h2⟩
        exact ⟨h1, by rintro t (rfl | ht); exact hx; exact h2 t ht⟩
      · rintro ⟨h1, h2⟩
        exact ⟨h1, fun t ht => h2 t (Or.inr ht)⟩

theorem mapLookup_eq_none (l : List Token) (addr : String) :
    mapLookup l addr = none ↔ ∀ t ∈ l, t.token_address ≠ addr := by
  unfold mapLookup
  rw [mapLookup_foldl_eq_none]
  simp

theorem mapLookup_foldl_eq_some (addr : String) (l : List Token) (acc : Option Token)
    (t : Token)
    (h : l.foldl (fun acc t => if t.token_address = addr then some t else acc) acc = some t) :
    (t ∈ l ∧ t.token_address = addr) ∨ acc = some t := by
  induction l generalizing acc with
  | nil => exact Or.inr h
  | cons x xs ih =>
    simp only [List.foldl_cons] at h
    rcases ih _ h with ⟨hmem, haddr⟩ | hacc
    · exact Or.inl ⟨List.mem_cons_of_mem _ hmem, haddr⟩
    · by_cases hx : x.token_address = addr
      · rw [if_pos hx] at hacc
        cases hacc
        exact Or.inl ⟨List.mem_cons_self _ _, hx⟩
      · rw [if_neg hx] at hacc
        exact Or.inr hacc

theorem mapLookup_eq_some (l : List Token) (addr : String) (t : Token)
    (h : mapLookup l addr = some t) : t ∈ l ∧ t.token_address = addr := by
  rcases mapLookup_foldl_eq_some addr l none t h with h' | h'
  · exact h'
  · cases h'

/-- A fully populated concrete record used in counterexamples and witnesses. -/
def baseTok : Token where
  token_address := "So11111111111111111111111111111111111111112"
  token_name := "Base Coin"
  token_ticker := "BASE"
  price_sol := 1
  market_cap_sol := 0
  volume_1h := some 0
  volume_24h := 0
  volume_7d := some 0
  volume_sol := 0
  liquidity_sol := 0
  transaction_count_1h := some 0
  transaction_count_24h := 0
  transaction_count_7d := some 0
  transaction_count := 0
  price_1hr_change := 0
  price_24hr_change := some 0
  price_7d_change := some 0
  protocol := "raydium"
  timestamp := "2024-01-01T00:00:00.000Z"

/-- Claim C2, counterexample: `mergeTokenPair` appends the literal string
"+GeckoTerminal", not the second argument's own source tag, so for a secondary
record whose `protocol` is "Orca" the claimed concatenation fails. -/
theorem mergeTokenPair_sourceTag_counterexample :
    (mergeTokenPair baseTok { baseTok with protocol := "Orca" }).protocol ≠
      baseTok.protocol ++ "+" ++ ({ baseTok with protocol := "Orca" } : Token).protocol := by
  decide

/-- Claim C2, amended: for every pair of records, the merged record's source
tag is `a.protocol ++ "+GeckoTerminal"` — the secondary tag is the hard-coded
name of the enrichment source, not `b.protocol`; the two coincide exactly when
`b.protocol = "GeckoTerminal"` (which the GeckoTerminal normalizer always
assigns). -/
theorem mergeTokenPair_sourceTag_amended (a b : Token) :
    (mergeTokenPair a b).protocol = a.protocol ++ "+GeckoTerminal" := rfl

/-- Claim C5: per-field precedence rules of the pairwise merge — price prefers
the secondary's nonzero value, market cap and liquidity take the max, 24h
volume and 24h transaction count are summed (hence symmetric in the two
arguments) and mirrored into their compatibility aliases, and the timestamp is
the later of the two. -/
theorem mergeTokenPair_fields (a b : Token) (_h : a.token_address = b.token_address) :
    (mergeTokenPair a b).price_sol = (if b.price_sol > 0 then b.price_sol else a.price_sol) ∧
    (mergeTokenPair a b).market_cap_sol = max a.market_cap_sol b.market_cap_sol ∧
    (mergeTokenPair a b).liquidity_sol = max a.liquidity_sol b.liquidity_sol ∧
    (mergeTokenPair a b).volume_24h = a.volume_24h + b.volume_24h ∧
    (mergeTokenPair a b).volume_24h = (mergeTokenPair b a).volume_24h ∧
    (mergeTokenPair a b).volume_sol = (mergeTokenPair a b).volume_24h ∧
    (mergeTokenPair a b).transaction_count_24h =
      a.transaction_count_24h + b.transaction_count_24h ∧
    (mergeTokenPair a b).transaction_count_24h = (mergeTokenPair b a).transaction_count_24h ∧
    (mergeTokenPair a b).transaction_count = (mergeTokenPair a b).transaction_count_24h ∧
    (mergeTokenPair a b).timestamp = max a.timestamp b.timestamp := by
  refine ⟨rfl, rfl, rfl, rfl, add_comm _ _, rfl, rfl, add_comm _ _, rfl, ?_⟩
  show (if a.timestamp < b.timestamp then b.timestamp else a.timestamp) = _
  rcases lt_or_le a.timestamp b.timestamp with h1 | h1
  · rw [if_pos h1, max_eq_right h1.le]
  · rw [if_neg (not_lt.mpr h1), max_eq_left h1]

/-- Claim C5 witness at a concrete pair of records with equal address. -/
theorem mergeTokenPair_fields_witness :
    (mergeTokenPair baseTok { baseTok with volume_24h := 5 }).volume_24h =
      baseTok.volume_24h + (5 : ℚ) :=
  (mergeTokenPair_fields baseTok { baseTok with volume_24h := 5 } rfl).2.2.2.1

/-- Claim C6: the set-level merge outputs exactly one record per primary
record, in primary order — the pairwise merge where a secondary record with
the same address exists, the primary record unchanged otherwise — and every
output record carries a primary record's address, so a record whose address
appears only in the secondary list never appears in the output. -/
theorem mergeTokenData_spec (dexTokens geckoTokens : List Token) :
    (mergeTokenData dexTokens geckoTokens).length = dexTokens.length ∧
    (∀ (i : Nat) (hi : i < dexTokens.length),
      (∃ gt, mapLookup geckoTokens (dexTokens.get ⟨i, hi⟩).token_address = some gt ∧
        gt ∈ geckoTokens ∧ gt.token_address = (dexTokens.get ⟨i, hi⟩).token_address ∧
        (mergeTokenData dexTokens geckoTokens)[i]! =
          mergeTokenPair (dexTokens.get ⟨i, hi⟩) gt) ∨
      ((∀ gt ∈ geckoTokens, gt.token_address ≠ (dexTokens.get ⟨i, hi⟩).token_address) ∧
        (mergeTokenData dexTokens geckoTokens)[i]! = dexTokens.get ⟨i, hi⟩)) ∧
    (∀ t ∈ mergeTokenData dexTokens geckoTokens,
      t.token_address ∈ dexTokens.map Token.token_address) := by
  refine ⟨by simp [mergeTokenData], ?_, ?_⟩
  · intro i hi
    have hlen : i < (mergeTokenData dexTokens geckoTokens).length := by
      simpa [mergeTokenData] using hi
    have hget : (mergeTokenData dexTokens geckoTokens)[i]! =
        (mergeTokenData dexTokens geckoTokens)[i] :=
      getElem!_pos (mergeTokenData dexTokens geckoTokens) i hlen
    have hmap : (mergeTokenData dexTokens geckoTokens)[i] =
        (match mapLookup geckoTokens (dexTokens.get ⟨i, hi⟩).token_address with
          | some geckoToken => mergeTokenPair (dexTokens.get ⟨i, hi⟩) geckoToken
          | none => dexTokens.get ⟨i, hi⟩) := by
      simp [mergeTokenData]
    cases hlk : mapLookup geckoTokens (dexTokens.get ⟨i, hi⟩).token_address with
    | some gt =>
        obtain ⟨hmem, haddr⟩ := mapLookup_eq_some _ _ _ hlk
        exact Or.inl ⟨gt, rfl, hmem, haddr, by rw [hget, hmap, hlk]⟩
    | none =>
        refine Or.inr ⟨(mapLookup_eq_none _ _).mp hlk, ?_⟩
        rw [hget, hmap, hlk]
  · intro t ht
    simp only [mergeTokenData, List.mem_map] at ht
    obtain ⟨dt, hdt, hteq⟩ := ht
    have haddr : t.token_address = dt.token_address := by
      cases hlk : mapLookup geckoTokens dt.token_address with
      | some gt =>
          rw [← hteq, hlk]
          rfl
      | none =>
          rw [← hteq, hlk]
    rw [haddr]
    exact List.mem_map_of_mem _ hdt

/-- A secondary-source record sharing `baseTok`'s address. -/
def geckoTok : Token :=
  { baseTok with protocol := "GeckoTerminal", volume_24h := 5, price_sol := 2 }

/-- Claim C6 witness at a concrete primary/secondary pair with a matching
address: the single output slot is the pairwise merge. -/
theorem mergeTokenData_spec_witness :
    (mergeTokenData [baseTok] [geckoTok])[0]! = mergeTokenPair baseTok geckoTok := by
  rcases (mergeTokenData_spec [baseTok] [geckoTok]).2.1 0 (by simp) with
    ⟨gt, hlk, _h1, _h2, heq⟩ | ⟨hno, _heq⟩
  · have hval : mapLookup [geckoTok] (([baseTok].get ⟨0, by simp⟩ : Token).token_address) =
        some geckoTok := rfl
    rw [hval] at hlk
    cases hlk
    exact heq
  · exact absurd rfl (hno geckoTok (by simp))

/-- `TokenService.applyPeriodFilter`: keep records with activity in the
requested time window. -/
def applyPeriodFilter (tokens : List Token) (period : Period) : List Token :=
  tokens.filter fun token =>
    match period with
    | .h1 => decide (token.volume_1h.getD 0 > 0) || decide (token.transaction_count_1h.getD 0 > 0)
    | .h24 => decide (token.volume_24h > 0) || decide (token.transaction_count_24h > 0)
    | .d7 => decide (token.volume_7d.getD 0 > 0) || decide (token.transaction_count_7d.getD 0 > 0)

/-- `TokenService.getVolumeForPeriod`: the volume field matching the period,
defaulting to the 24h volume. -/
def getVolumeForPeriod (token : Token) (period : Option Period) : ℚ :=
  match period with
  | some .h1 => token.volume_1h.getD 0
  | some .d7 => token.volume_7d.getD 0
  | some .h24 => token.volume_24h
  | none => token.volume_24h

/-- `TokenService.getPriceChangeForPeriod`: the price-change-percentage field
matching the period; the 1h field doubles as the fallback default. -/
def getPriceChangeForPeriod (token : Token) (period : Option Period) : ℚ :=
  match period with
  | some .h1 => token.price_1hr_change
  | some .h24 => token.price_24hr_change.getD 0
  | some .d7 => token.price_7d_change.getD 0
  | none => token.price_1hr_change

/-- `TokenService.applySorting`: stable descending sort by the key selected
by `sortBy` (and, for volume and price change, the period). -/
def applySorting (tokens : List Token) (sortBy : SortBy) (period : Option Period) :
    List Token :=
  match sortBy with
  | .volume =>
      tokens.mergeSort fun a b =>
        decide (getVolumeForPeriod b period ≤ getVolumeForPeriod a period)
  | .price_change =>
      tokens.mergeSort fun a b =>
        decide (getPriceChangeForPeriod b period ≤ getPriceChangeForPeriod a period)
  | .market_cap =>
      tokens.mergeSort fun a b => decide (b.market_cap_sol ≤ a.market_cap_sol)

/-- `TokenService.applyFilters`: period filter, then sort, then cursor
pagination, then limit — each step only when its filter component is given
(JavaScript truthiness: an empty cursor string and a zero/negative limit are
skipped). -/
def applyFilters (tokens : List Token) (filters : Option TokenFilters) : List Token :=
  match filters with
  | none => tokens
  | some f =>
    let f1 :=
      match f.period with
      | some p => applyPeriodFilter tokens p
      | none => tokens
    let f2 :=
      match f.sortBy with
      | some s => applySorting f1 s f.period
      | none => f1
    let f3 :=
      match f.cursor with
      | some c =>
          if c = "" then f2
          else
            match f2.findIdx? (fun t => t.token_address == c) with
            | some i => f2.drop (i + 1)
            | none => f2
      | none => f2
    match f.limit with
    | some l => if l > 0 then f3.take l.toNat else f3
    | none => f3

/-- Step 2 of `applyFilters` in isolation (time-window filter, only if a
period is given). -/
def periodStep (period : Option Period) (tokens : List Token) : List Token :=
  match period with
  | some p => applyPeriodFilter tokens p
  | none => tokens

/-- Step 3 of `applyFilters` in isolation (sort, only if a sort key is given). -/
def sortStep (sortBy : Option SortBy) (period : Option Period) (tokens : List Token) :
    List Token :=
  match sortBy with
  | some s => applySorting tokens s period
  | none => tokens

/-- Step 4 of `applyFilters` in isolation (cursor pagination, only if a
non-empty cursor is given). -/
def cursorStep (cursor : Option String) (tokens : List Token) : List Token :=
  match cursor with
  | some c =>
      if c = "" then tokens
      else
        match tokens.findIdx? (fun t => t.token_address == c) with
        | some i => tokens.drop (i + 1)
        | none => tokens
  | none => tokens

/-- Step 5 of `applyFilters` in isolation (truncation, only if a positive
limit is given). -/
def limitStep (limit : Option Int) (tokens : List Token) : List Token :=
  match limit with
  | some l => if l > 0 then tokens.take l.toNat else tokens
  | none => tokens

/-- Address of the i-th demonstration record. -/
def demoAddr (i : Nat) : String := String.mk (List.replicate (i + 1) 'a')

/-- The i-th demonstration record. -/
def demoTok (i : Nat) : Token := { baseTok with token_address := demoAddr i }

/-- Twenty-five demonstration records with pairwise distinct addresses. -/
def demoTokens : List Token := (List.range 25).map demoTok

/-- Claim C4: `applyFilters` is exactly the composition period-filter, then
sort, then cursor pagination, then limit, each step conditional on its
component being given; the cursor drops the matching record and everything
before it (and drops nothing when no record matches); and on 25 records with
the cursor at record 10 and limit 5 the output is exactly records 11-15 in
order. -/
theorem applyFilters_spec :
    (∀ (tokens : List Token) (f : TokenFilters),
      applyFilters tokens (some f) =
        limitStep f.limit (cursorStep f.cursor (sortStep f.sortBy f.period
          (periodStep f.period tokens)))) ∧
    (∀ (tokens : List Token) (c : String) (i : Nat), c ≠ "" →
      tokens.findIdx? (fun t => t.token_address == c) = some i →
      applyFilters tokens (some { cursor := some c }) = tokens.drop (i + 1)) ∧
    (∀ (tokens : List Token) (c : String), c ≠ "" →
      tokens.findIdx? (fun t => t.token_address == c) = none →
      applyFilters tokens (some { cursor := some c }) = tokens) ∧
    applyFilters demoTokens (some { limit := some 5, cursor := some (demoAddr 9) }) =
      (demoTokens.drop 10).take 5 := by
  refine ⟨fun tokens f => rfl, ?_, ?_, ?_⟩
  · intro tokens c i hc hidx
    have hred : applyFilters tokens (some { cursor := some c }) =
        (if c = "" then tokens
          else
            match tokens.findIdx? (fun t => t.token_address == c) with
            | some i => tokens.drop (i + 1)
            | none => tokens) := rfl
    rw [hred, if_neg hc, hidx]
  · intro tokens c hc hidx
    have hred : applyFilters tokens (some { cursor := some c }) =
        (if c = "" then tokens
          else
            match tokens.findIdx? (fun t => t.token_address == c) with
            | some i => tokens.drop (i + 1)
            | none => tokens) := rfl
    rw [hred, if_neg hc, hidx]
  · rfl

/-- Claim C4 witness: the cursor clause at a concrete two-record list. -/
theorem applyFilters_spec_witness :
    applyFilters [baseTok, demoTok 0] (some { cursor := some baseTok.token_address }) =
      [demoTok 0] := by
  have h := applyFilters_spec.2.1 [baseTok, demoTok 0] baseTok.token_address 0
    (by decide) rfl
  simpa using h

/-- The per-record predicate of `TokenService.filterForDashboard`: basic info
present (JavaScript truthiness: non-empty strings), not an obvious junk token,
and some 24h trading activity. -/
def dashboardKeep (token : Token) : Bool :=
  if token.token_address = "" ∨ token.token_name = "" ∨ token.token_ticker = "" then false
  else if token.token_ticker = "Unknown" ∨ token.token_name.length < 2 ∨
      token.token_ticker.length < 2 then false
  else decide (token.volume_24h > 0 ∧ token.liquidity_sol > 0)

/-- `TokenService.filterForDashboard`: quality filter followed by a stable
sort by descending 24h volume. -/
def filterForDashboard (tokens : List Token) : List Token :=
  (tokens.filter dashboardKeep).mergeSort fun a b => decide (b.volume_24h ≤ a.volume_24h)

/-- A record that passes the dashboard filter although its address is a single
character. -/
def shortAddrTok : Token :=
  { baseTok with
    token_address := "a"
    token_name := "Pepe"
    token_ticker := "PEPE"
    volume_24h := 1
    liquidity_sol := 1 }

theorem shortAddrTok_keep : dashboardKeep shortAddrTok = true := by
  unfold dashboardKeep
  rw [if_neg (by decide), if_neg (by decide), decide_eq_true_eq]
  exact ⟨by norm_num [shortAddrTok, baseTok], by norm_num [shortAddrTok, baseTok]⟩

theorem shortAddrTok_mem : shortAddrTok ∈ filterForDashboard [shortAddrTok] := by
  unfold filterForDashboard
  rw [List.mem_mergeSort]
  simp [List.filter_cons, shortAddrTok_keep]

/-- Claim C3, counterexample: the dashboard filter checks a minimum length of
2 only for the name and the ticker; the address is only required to be
non-empty, so a surviving record can have a 1-character address, refuting the
claimed "address ... at least 2 characters long". -/
theorem filterForDashboard_addressLen_counterexample :
    shortAddrTok ∈ filterForDashboard [shortAddrTok] ∧
      shortAddrTok.token_address.length < 2 :=
  ⟨shortAddrTok_mem, by decide⟩

/-- Claim C3, amended: every record surviving the dashboard filter has a
non-empty address and a name and ticker of at least 2 characters each, a
ticker different from the sentinel "Unknown", strictly positive 24h volume and
liquidity (so no record with zero volume or zero liquidity survives), and the
output is ordered by descending 24h volume. -/
theorem filterForDashboard_spec :
    (∀ (tokens : List Token) (t : Token), t ∈ filterForDashboard tokens →
      t.token_address ≠ "" ∧ t.token_name ≠ "" ∧ t.token_ticker ≠ "" ∧
      2 ≤ t.token_name.length ∧ 2 ≤ t.token_ticker.length ∧
      t.token_ticker ≠ "Unknown" ∧ 0 < t.volume_24h ∧ 0 < t.liquidity_sol) ∧
    (∀ tokens : List Token,
      (filterForDashboard tokens).Pairwise fun a b => b.volume_24h ≤ a.volume_24h) := by
  constructor
  · intro tokens t ht
    rw [filterForDashboard, List.mem_mergeSort, List.mem_filter] at ht
    have hkeep := ht.2
    unfold dashboardKeep at hkeep
    by_cases h1 : t.token_address = "" ∨ t.token_name = "" ∨ t.token_ticker = ""
    · rw [if_pos h1] at hkeep; cases hkeep
    · rw [if_neg h1] at hkeep
      by_cases h2 : t.token_ticker = "Unknown" ∨ t.token_name.length < 2 ∨
          t.token_ticker.length < 2
      · rw [if_pos h2] at hkeep; cases hkeep
      · rw [if_neg h2, decide_eq_true_eq] at hkeep
        push_neg at h1 h2
        exact ⟨h1.1, h1.2.1, h1.2.2, h2.2.1, h2.2.2, h2.1, hkeep.1, hkeep.2⟩
  · intro tokens
    have hs := @List.sorted_mergeSort Token
      (fun a b : Token => decide (b.volume_24h ≤ a.volume_24h))
      (fun a b c hab hbc => by
        rw [decide_eq_true_eq] at hab hbc ⊢
        exact le_trans hbc hab)
      (fun a b => by
        rcases le_total b.volume_24h a.volume_24h with h | h
        · simp [h]
        · simp [h])
      (tokens.filter dashboardKeep)
    rw [filterForDashboard]
    exact hs.imp fun h => by rwa [decide_eq_true_eq] at h

/-- Claim C3 witness: the amended invariant instantiated at a concrete
surviving record. -/
theorem filterForDashboard_spec_witness :
    0 < shortAddrTok.volume_24h ∧ 0 < shortAddrTok.liquidity_sol := by
  have h := filterForDashboard_spec.1 [shortAddrTok] shortAddrTok shortAddrTok_mem
  exact ⟨h.2.2.2.2.2.2.1, h.2.2.2.2.2.2.2⟩

/-- `TokenService.hasPriceChanged`: absolute price move beyond
`max(prior * 0.001, 1e-8)`, or a 1h / 24h price-change-percentage delta
beyond 0.1. -/
def hasPriceChanged (newToken cachedToken : Token) : Bool :=
  let priceThreshold := max (cachedToken.price_sol * 0.001) 0.00000001
  let priceDiff := |newToken.price_sol - cachedToken.price_sol|
  let priceChange1h := |newToken.price_1hr_change - cachedToken.price_1hr_change|
  let priceChange24h :=
    |newToken.price_24hr_change.getD 0 - cachedToken.price_24hr_change.getD 0|
  decide (priceDiff > priceThreshold) || decide (priceChange1h > 0.1) ||
    decide (priceChange24h > 0.1)

/-- `TokenService.hasVolumeChanged`: 24h volume delta beyond
`max(prior * 0.001, 1)`, or 1h volume delta beyond `max(prior * 0.001, 0.1)`. -/
def hasVolumeChanged (newToken cachedToken : Token) : Bool :=
  let volume24hThreshold := max (cachedToken.volume_24h * 0.001) 1
  let volume24hDiff := |newToken.volume_24h - cachedToken.volume_24h|
  let volume1hThreshold := max (cachedToken.volume_1h.getD 0 * 0.001) 0.1
  let volume1hDiff := |newToken.volume_1h.getD 0 - cachedToken.volume_1h.getD 0|
  decide (volume24hDiff > volume24hThreshold) || decide (volume1hDiff > volume1hThreshold)

/-- `TokenService.hasMarketCapChanged`: market cap delta beyond
`max(prior * 0.001, 1)`. -/
def hasMarketCapChanged (newToken cachedToken : Token) : Bool :=
  let marketCapThreshold := max (cachedToken.market_cap_sol * 0.001) 1
  let marketCapDiff := |newToken.market_cap_sol - cachedToken.market_cap_sol|
  decide (marketCapDiff > marketCapThreshold)

/-- `TokenService.hasTransactionCountChanged`: 24h or 1h transaction-count
delta beyond `max(prior * 0.001, 0.1)`. -/
def hasTransactionCountChanged (newToken cachedToken : Token) : Bool :=
  let txn24hThreshold := max (cachedToken.transaction_count_24h * 0.001) 0.1
  let txn24hDiff := |newToken.transaction_count_24h - cachedToken.transaction_count_24h|
  let txn1hThreshold := max (cachedToken.transaction_count_1h.getD 0 * 0.001) 0.1
  let txn1hDiff :=
    |newToken.transaction_count_1h.getD 0 - cachedToken.transaction_count_1h.getD 0|
  decide (txn24hDiff > txn24hThreshold) || decide (txn1hDiff > txn1hThreshold)

/-- The `hasChanged` disjunction in `TokenService.detectChangedTokens`. -/
def hasChangedPair (newToken cachedToken : Token) : Bool :=
  hasPriceChanged newToken cachedToken || hasVolumeChanged newToken cachedToken ||
    hasMarketCapChanged newToken cachedToken ||
    hasTransactionCountChanged newToken cachedToken

/-- The `oldTokensMap` lookup of `detectChangedTokens`: empty when the prior
snapshot is null. -/
def oldLookup (oldTokens : Option (List Token)) (addr : String) : Option Token :=
  match oldTokens with
  | some l => mapLookup l addr
  | none => none

/-- `TokenService.detectChangedTokens` (the non-exceptional path): a record
with no prior counterpart is changed; one with a counterpart is changed iff
the per-field comparison disjunction trips. -/
def detectChangedTokens (newTokens : List Token) (oldTokens : Option (List Token)) :
    List Token :=
  if newTokens.length = 0 then []
  else
    newTokens.filter fun newToken =>
      match oldLookup oldTokens newToken.token_address with
      | none => true
      | some cachedToken => hasChangedPair newToken cachedToken

/-- The change condition exactly as claim C1 words it: one threshold per
field, each a max of a relative floor and an absolute floor. -/
def changedSpec (n c : Token) : Prop :=
  |n.price_sol - c.price_sol| > max (c.price_sol * 0.001) 0.00000001 ∨
  |n.price_1hr_change - c.price_1hr_change| > 0.1 ∨
  |n.price_24hr_change.getD 0 - c.price_24hr_change.getD 0| > 0.1 ∨
  |n.volume_24h - c.volume_24h| > max (c.volume_24h * 0.001) 1 ∨
  |n.volume_1h.getD 0 - c.volume_1h.getD 0| > max (c.volume_1h.getD 0 * 0.001) 0.1 ∨
  |n.market_cap_sol - c.market_cap_sol| > max (c.market_cap_sol * 0.001) 1 ∨
  |n.transaction_count_24h - c.transaction_count_24h| >
    max (c.transaction_count_24h * 0.001) 0.1 ∨
  |n.transaction_count_1h.getD 0 - c.transaction_count_1h.getD 0| >
    max (c.transaction_count_1h.getD 0 * 0.001) 0.1

theorem hasChangedPair_iff (n c : Token) : hasChangedPair n c = true ↔ changedSpec n c := by
  simp only [hasChangedPair, hasPriceChanged, hasVolumeChanged, hasMarketCapChanged,
    hasTransactionCountChanged, changedSpec, Bool.or_eq_true, decide_eq_true_eq]
  tauto

/-- The new record of the spec's worked example: prior price 1.0, new price
1.002, all other fields untouched. -/
def tokNew1002 : Token := { baseTok with price_sol := 1.002 }

/-- The new record of the spec's second worked example: new price 1.0005. -/
def tokNew10005 : Token := { baseTok with price_sol := 1.0005 }

theorem tokNew1002_price : hasPriceChanged tokNew1002 baseTok = true := by
  simp only [hasPriceChanged, Bool.or_eq_true, decide_eq_true_eq]
  refine Or.inl (Or.inl ?_)
  have habs : |tokNew1002.price_sol - baseTok.price_sol| = 0.002 := by
    show |(1.002 : ℚ) - 1| = 0.002
    rw [abs_of_nonneg (by norm_num)]
    norm_num
  rw [habs]
  show (0.002 : ℚ) > max ((1 : ℚ) * 0.001) 0.00000001
  norm_num

theorem tokNew10005_price : hasPriceChanged tokNew10005 baseTok = false := by
  simp only [hasPriceChanged, Bool.or_eq_false_iff, decide_eq_false_iff_not]
  refine ⟨⟨?_, ?_⟩, ?_⟩
  · have habs : |tokNew10005.price_sol - baseTok.price_sol| = 0.0005 := by
      show |(1.0005 : ℚ) - 1| = 0.0005
      rw [abs_of_nonneg (by norm_num)]
      norm_num
    rw [habs]
    show ¬((0.0005 : ℚ) > max ((1 : ℚ) * 0.001) 0.00000001)
    norm_num
  · show ¬(|(0 : ℚ) - 0| > 0.1)
    norm_num
  · show ¬(|(0 : ℚ) - 0| > 0.1)
    norm_num

theorem unchanged_volume (n : Token) (h1 : n.volume_24h = baseTok.volume_24h)
    (h2 : n.volume_1h = baseTok.volume_1h) : hasVolumeChanged n baseTok = false := by
  simp only [hasVolumeChanged, Bool.or_eq_false_iff, decide_eq_false_iff_not]
  rw [h1, h2]
  constructor
  · show ¬(|(0 : ℚ) - 0| > max ((0 : ℚ) * 0.001) 1)
    norm_num
  · show ¬(|(0 : ℚ) - 0| > max ((0 : ℚ) * 0.001) 0.1)
    norm_num

theorem unchanged_marketCap (n : Token) (h1 : n.market_cap_sol = baseTok.market_cap_sol) :
    hasMarketCapChanged n baseTok = false := by
  simp only [hasMarketCapChanged, decide_eq_false_iff_not]
  rw [h1]
  show ¬(|(0 : ℚ) - 0| > max ((0 : ℚ) * 0.001) 1)
  norm_num

theorem unchanged_txn (n : Token) (h1 : n.transaction_count_24h = baseTok.transaction_count_24h)
    (h2 : n.transaction_count_1h = baseTok.transaction_count_1h) :
    hasTransactionCountChanged n baseTok = false := by
  simp only [hasTransactionCountChanged, Bool.or_eq_false_iff, decide_eq_false_iff_not]
  rw [h1, h2]
  constructor
  · show ¬(|(0 : ℚ) - 0| > max ((0 : ℚ) * 0.001) 0.1)
    norm_num
  · show ¬(|(0 : ℚ) - 0| > max ((0 : ℚ) * 0.001) 0.1)
    norm_num

/-- Claim C1: a new record with no prior counterpart is always in the changed
subset; a record with a prior counterpart is in the changed subset iff one of
the per-field threshold comparisons trips; and concretely, a price move from
1.0 to 1.002 is flagged while a move to 1.0005 alone is not. -/
theorem detectChangedTokens_spec :
    (∀ (newTokens oldTokens : List Token) (t : Token), t ∈ newTokens →
      (∀ p ∈ oldTokens, p.token_address ≠ t.token_address) →
      t ∈ detectChangedTokens newTokens (some oldTokens)) ∧
    (∀ (newTokens oldTokens : List Token) (t c : Token), t ∈ newTokens →
      oldLookup (some oldTokens) t.token_address = some c →
      (t ∈ detectChangedTokens newTokens (some oldTokens) ↔ changedSpec t c)) ∧
    detectChangedTokens [tokNew1002] (some [baseTok]) = [tokNew1002] ∧
    detectChangedTokens [tokNew10005] (some [baseTok]) = [] := by
  have hnonzero : ∀ (newTokens : List Token) (t : Token), t ∈ newTokens →
      ¬(newTokens.length = 0) := by
    intro newTokens t ht h
    rw [List.length_eq_zero] at h
    subst h
    cases ht
  refine ⟨?_, ?_, ?_, ?_⟩
  · intro newTokens oldTokens t ht hno
    have hlk : oldLookup (some oldTokens) t.token_address = none :=
      (mapLookup_eq_none oldTokens t.token_address).mpr hno
    rw [detectChangedTokens, if_neg (hnonzero newTokens t ht)]
    exact List.mem_filter.mpr ⟨ht, by rw [hlk]⟩
  · intro newTokens oldTokens t c ht hlk
    rw [detectChangedTokens, if_neg (hnonzero newTokens t ht)]
    rw [List.mem_filter]
    constructor
    · rintro ⟨-, hp⟩
      rw [hlk] at hp
      exact (hasChangedPair_iff t c).mp hp
    · intro hch
      refine ⟨ht, ?_⟩
      rw [hlk]
      exact (hasChangedPair_iff t c).mpr hch
  · have hch : hasChangedPair tokNew1002 baseTok = true := by
      simp [hasChangedPair, tokNew1002_price]
    have hlk : oldLookup (some [baseTok]) tokNew1002.token_address = some baseTok := rfl
    rw [detectChangedTokens, if_neg (by simp)]
    simp [List.filter_cons, hlk, hch]
  · have hch : hasChangedPair tokNew10005 baseTok = false := by
      simp [hasChangedPair, tokNew10005_price, unchanged_volume tokNew10005 rfl rfl,
        unchanged_marketCap tokNew10005 rfl, unchanged_txn tokNew10005 rfl rfl]
    have hlk : oldLookup (some [baseTok]) tokNew10005.token_address = some baseTok := rfl
    rw [detectChangedTokens, if_neg (by simp)]
    simp [List.filter_cons, hlk, hch]

/-- Claim C1 witness: the no-counterpart clause at a concrete record. -/
theorem detectChangedTokens_spec_witness :
    baseTok ∈ detectChangedTokens [baseTok] (some []) :=
  detectChangedTokens_spec.1 [baseTok] [] baseTok (by simp) (by simp)

/-- The comparison loop of `detectChangedTokens` with a fallible comparison,
modelling the body of its `try` block: the loop walks the new records carrying
the `changedTokens` accumulator, and a thrown comparison error aborts it. -/
def detectGo {ε : Type} (cmp : Token → Token → Except ε Bool)
    (oldTokens : Option (List Token)) :
    List Token → List Token → Except ε (List Token)
  | changed, [] => Except.ok changed
  | changed, newToken :: rest =>
    match oldLookup oldTokens newToken.token_address with
    | none => detectGo cmp oldTokens (changed ++ [newToken]) rest
    | some cachedToken =>
        match cmp newToken cachedToken with
        | .error e => .error e
        | .ok b => detectGo cmp oldTokens (if b then changed ++ [newToken] else changed) rest

/-- The whole `try` block of `detectChangedTokens` with a fallible comparison. -/
def detectChangedTokensCore {ε : Type} (cmp : Token → Token → Except ε Bool)
    (newTokens : List Token) (oldTokens : Option (List Token)) :
    Except ε (List Token) :=
  detectGo cmp oldTokens [] newTokens

/-- `detectChangedTokens` with its `try/catch`: an error during comparison is
caught and the entire new set is returned (fail open). -/
def detectChangedTokensT {ε : Type} (cmp : Token → Token → Except ε Bool)
    (newTokens : List Token) (oldTokens : Option (List Token)) : List Token :=
  if newTokens.length = 0 then []
  else
    match detectChangedTokensCore cmp newTokens oldTokens with
    | .ok changed => changed
    | .error _ => newTokens

theorem detectGo_ok (oldTokens : Option (List Token)) (l : List Token) :
    ∀ changed : List Token,
      detectGo (fun n c => (Except.ok (hasChangedPair n c) : Except Unit Bool))
          oldTokens changed l =
        Except.ok (changed ++ l.filter fun newToken =>
          match oldLookup oldTokens newToken.token_address with
          | none => true
          | some cachedToken => hasChangedPair newToken cachedToken) := by
  induction l with
  | nil => intro changed; simp [detectGo]
  | cons x xs ih =>
    intro changed
    rw [List.filter_cons]
    cases hlk : oldLookup oldTokens x.token_address with
    | none =>
        simp only [detectGo, hlk]
        rw [ih (changed ++ [x])]
        simp
    | some c =>
        simp only [detectGo, hlk]
        by_cases hch : hasChangedPair x c = true
        · rw [if_pos hch, if_pos hch, ih (changed ++ [x])]
          simp
        · rw [if_neg hch, if_neg hch, ih changed]

/-- Claim C9: with the real (never-throwing) comparison the exceptional model
coincides with `detectChangedTokens`; and whenever the comparison loop raises
an internal error after the non-empty-input check, the detector fails open and
returns the entire new record set rather than an empty or partial subset. -/
theorem detectChangedTokens_failOpen :
    (∀ (newTokens : List Token) (oldTokens : Option (List Token)),
      detectChangedTokensT (fun n c => (Except.ok (hasChangedPair n c) : Except Unit Bool))
        newTokens oldTokens = detectChangedTokens newTokens oldTokens) ∧
    (∀ (ε : Type) (cmp : Token → Token → Except ε Bool)
      (newTokens : List Token) (oldTokens : Option (List Token)) (e : ε),
      detectChangedTokensCore cmp newTokens oldTokens = Except.error e →
      detectChangedTokensT cmp newTokens oldTokens = newTokens) := by
  constructor
  · intro newTokens oldTokens
    unfold detectChangedTokensT detectChangedTokens detectChangedTokensCore
    by_cases h : newTokens.length = 0
    · rw [if_pos h, if_pos h]
    · rw [if_neg h, if_neg h, detectGo_ok oldTokens newTokens []]
      simp
  · intro ε cmp newTokens oldTokens e herr
    unfold detectChangedTokensT
    by_cases h : newTokens.length = 0
    · exfalso
      rw [List.length_eq_zero] at h
      subst h
      rw [show detectChangedTokensCore cmp [] oldTokens = Except.ok [] from rfl] at herr
      cases herr
    · rw [if_neg h, herr]

/-- A comparison that always reports a malformed prior snapshot. -/
def errCmp : Token → Token → Except String Bool :=
  fun _ _ => Except.error "malformed prior snapshot"

/-- Claim C9 witness: a concrete erroring comparison over a one-record input
makes the detector return the whole new set. -/
theorem detectChangedTokens_failOpen_witness :
    detectChangedTokensT errCmp [baseTok] (some [baseTok]) = [baseTok] :=
  detectChangedTokens_failOpen.2 String errCmp [baseTok] (some [baseTok])
    "malformed prior snapshot" rfl

/-- One cache write performed by the service: either a token-list entry under
the key built from a filter combination (`none` = the unfiltered `tokens:all`
entry), or an individual per-address token entry. -/
inductive CacheWrite where
  | setTokens (filters : Option TokenFilters) (tokens : List Token)
  | setToken (token : Token)

/-- The fixed list of pre-cached filter combinations in
`TokenService.cacheTokensComprehensively`. -/
def commonFilterCombinations : List TokenFilters :=
  [{ period := some .h24, sortBy := some .volume, limit := some 20 },
   { period := some .h24, sortBy := some .volume, limit := some 50 },
   { period := some .h1, sortBy := some .volume, limit := some 20 },
   { period := some .d7, sortBy := some .volume, limit := some 20 },
   { period := some .h24, sortBy := some .price_change, limit := some 10 },
   { period := some .h24, sortBy := some .market_cap, limit := some 20 },
   { sortBy := some .price_change, limit := some 10 },
   { sortBy := some .price_change, limit := some 50 },
   { sortBy := some .volume, limit := some 20 },
   { sortBy := some .volume, limit := some 50 }]

/-- `TokenService.cacheTokensComprehensively` as the trace of cache writes it
performs: the full list, each individual token, then the pre-filtered common
combinations. -/
def cacheTokensComprehensively (tokens : List Token) : List CacheWrite :=
  CacheWrite.setTokens none tokens ::
    (tokens.map CacheWrite.setToken ++
      commonFilterCombinations.map fun f =>
        CacheWrite.setTokens (some f) (applyFilters tokens (some f)))

/-- `TokenService.refreshTokens`, with the effects made explicit: `oldTokens`
is the prior cached full set (the cache read performed first), `newTokens` is
the result of `fetchAndEnrichTokens` (the upstream fetch), and the second
component is the trace of cache writes performed. A cycle that produced zero
records returns empty results and performs no writes. -/
def refreshTokens (oldTokens newTokens : List Token) :
    (List Token × List Token) × List CacheWrite :=
  if newTokens.length = 0 then (([], []), [])
  else
    ((newTokens, detectChangedTokens newTokens (some oldTokens)),
      cacheTokensComprehensively newTokens)

/-- Claim C8: a refresh cycle that produced zero records performs no cache
writes and returns empty `allTokens` and `changedTokens`; cache writes and
change detection happen exactly when at least one record was produced. -/
theorem refreshTokens_spec :
    (∀ oldTokens : List Token, refreshTokens oldTokens [] = (([], []), [])) ∧
    (∀ oldTokens newTokens : List Token, newTokens ≠ [] →
      refreshTokens oldTokens newTokens =
        ((newTokens, detectChangedTokens newTokens (some oldTokens)),
          cacheTokensComprehensively newTokens)) ∧
    (∀ oldTokens newTokens : List Token,
      (refreshTokens oldTokens newTokens).2 ≠ [] → newTokens ≠ []) := by
  refine ⟨fun oldTokens => rfl, ?_, ?_⟩
  · intro oldTokens newTokens h
    rw [refreshTokens, if_neg (by simpa [List.length_eq_zero] using h)]
  · intro oldTokens newTokens h
    intro hnil
    subst hnil
    exact h rfl

/-- Claim C8 witness: a refresh that produced one record both caches and
diffs it. -/
theorem refreshTokens_spec_witness :
    refreshTokens [] [baseTok] =
      (([baseTok], detectChangedTokens [baseTok] (some [])),
        cacheTokensComprehensively [baseTok]) :=
  refreshTokens_spec.2.1 [] [baseTok] (by simp)

/-- String form of a period, as it appears in cache keys. -/
def periodString : Period → String
  | .h1 => "1h"
  | .h24 => "24h"
  | .d7 => "7d"

/-- String form of a sort key, as it appears in cache keys. -/
def sortByString : SortBy → String
  | .volume => "volume"
  | .price_change => "price_change"
  | .market_cap => "market_cap"

/-- `CacheManager.buildTokenKey`: the cache key uses only period, sortBy and
limit (JavaScript falsiness: a zero limit renders as "all"); the cursor never
enters the key. -/
def buildTokenKey (filters : Option TokenFilters) : String :=
  match filters with
  | none => "tokens:all"
  | some f =>
      "tokens:" ++
        (match f.period with
          | some p => periodString p
          | none => "all") ++ ":" ++
        (match f.sortBy with
          | some s => sortByString s
          | none => "default") ++ ":" ++
        (match f.limit with
          | some l => if l = 0 then "all" else toString l
          | none => "all")

/-- `TokenService.getTokens`, with the cache read as an explicit function from
keys to stored values and the upstream fetch result as an explicit argument:
return the cached entry for the filter key when non-empty; otherwise filter
the cached full set when non-empty; otherwise refresh and filter. -/
def getTokens (cache : String → Option (List Token)) (fetched : List Token)
    (filters : Option TokenFilters) : List Token :=
  let cachedTokens := (cache (buildTokenKey filters)).getD []
  if cachedTokens.length > 0 then cachedTokens
  else
    let allCachedTokens := (cache (buildTokenKey none)).getD []
    if allCachedTokens.length > 0 then applyFilters allCachedTokens filters
    else applyFilters (refreshTokens allCachedTokens fetched).1.1 filters

/-- Claim C10: when the request's filters include a cursor and the cache
already holds a non-empty list under the key built from period, sortBy and
limit, `getTokens` returns that cached list unchanged — no cursor pagination
or re-filtering is applied — and the cache key is identical whatever the
cursor is. -/
theorem getTokens_cachedBypassesCursor :
    (∀ (cache : String → Option (List Token)) (fetched : List Token)
      (f : TokenFilters) (c : String) (l : List Token),
      f.cursor = some c →
      cache (buildTokenKey (some f)) = some l → l ≠ [] →
      getTokens cache fetched (some f) = l) ∧
    (∀ (f : TokenFilters) (cur cur2 : Option String),
      buildTokenKey (some { f with cursor := cur }) =
        buildTokenKey (some { f with cursor := cur2 })) := by
  constructor
  · intro cache fetched f c l _hc hcache hne
    unfold getTokens
    rw [hcache]
    simp only [Option.getD_some]
    rw [if_pos (by simpa [List.length_pos] using hne)]
  · intro f cur cur2
    rfl

/-- A concrete filter specification that includes a cursor. -/
def demoFilters : TokenFilters :=
  { period := some .h24, sortBy := some .volume, limit := some 20, cursor := some "abc" }

/-- A concrete cache holding one non-empty entry under `demoFilters`' key. -/
def demoCache : String → Option (List Token) :=
  fun k => if k = buildTokenKey (some demoFilters) then some [baseTok] else none

/-- Claim C10 witness: with the entry cached, the cursor-bearing request gets
the cached list back unchanged. -/
theorem getTokens_cachedBypassesCursor_witness :
    getTokens demoCache [] (some demoFilters) = [baseTok] :=
  getTokens_cachedBypassesCursor.1 demoCache [] demoFilters "abc" [baseTok] rfl
    (by simp [demoCache]) (by simp)

/-- JavaScript `String.prototype.startsWith` on character lists. -/
def leadsWith : List Char → List Char → Bool
  | [], _ => true
  | _ :: _, [] => false
  | p :: ps, c :: cs => p == c && leadsWith ps cs

/-- JavaScript `String.prototype.includes` (contiguous substring search) on
character lists. -/
def hasSubstr (pat : List Char) : List Char → Bool
  | [] => leadsWith pat []
  | c :: cs => leadsWith pat (c :: cs) || hasSubstr pat cs

/-- Membership in the base58 alphabet `[1-9A-HJ-NP-Za-km-z]` tested by the
validator's regex. -/
def isBase58Char (c : Char) : Bool :=
  (decide ('1' ≤ c) && decide (c ≤ '9')) || (decide ('A' ≤ c) && decide (c ≤ 'H')) ||
    (decide ('J' ≤ c) && decide (c ≤ 'N')) || (decide ('P' ≤ c) && decide (c ≤ 'Z')) ||
    (decide ('a' ≤ c) && decide (c ≤ 'k')) || (decide ('m' ≤ c) && decide (c ≤ 'z'))

/-- `TokenService.isValidSolanaAddress` (the same predicate appears as
`GeckoTerminalClient.filterValidSolanaAddresses`' per-element check): rejects
empty input, a hex `0x` prefix, a `.` character, the substring `ibc/`, lengths
outside [32,44], non-base58 characters, and a run of forty `0` characters. -/
def isValidSolanaAddress (address : List Char) : Bool :=
  if address = [] then false
  else if leadsWith ['0', 'x'] address then false
  else if hasSubstr ['.'] address then false
  else if hasSubstr ['i', 'b', 'c', '/'] address then false
  else if address.length < 32 ∨ address.length > 44 then false
  else if address.all isBase58Char = false then false
  else if hasSubstr (List.replicate 40 '0') address then false
  else true

theorem leadsWith_mem : ∀ p s : List Char, leadsWith p s = true → ∀ c ∈ p, c ∈ s := by
  intro p
  induction p with
  | nil => intro s _ c hc; cases hc
  | cons x xs ih =>
    intro s h c hc
    cases s with
    | nil => cases h
    | cons b bs =>
      simp only [leadsWith, Bool.and_eq_true, beq_iff_eq] at h
      obtain ⟨hxb, hrest⟩ := h
      rcases List.mem_cons.mp hc with rfl | hc2
      · rw [hxb]; exact List.mem_cons_self _ _
      · exact List.mem_cons_of_mem _ (ih bs hrest c hc2)

theorem hasSubstr_mem : ∀ pat s : List Char, hasSubstr pat s = true → ∀ c ∈ pat, c ∈ s := by
  intro pat s
  induction s with
  | nil => exact fun h c hc => leadsWith_mem pat [] h c hc
  | cons b bs ih =>
    intro h c hc
    simp only [hasSubstr, Bool.or_eq_true] at h
    rcases h with h | h
    · exact leadsWith_mem _ _ h c hc
    · exact List.mem_cons_of_mem _ (ih h c hc)

/-- Claim C7: the address validator returns false on the empty string, a `0x`
prefix, a `.` character, the substring `ibc/`, length below 32 or above 44,
any character outside the base58 alphabet, or a run of forty `0` characters;
and returns true on every well-formed base58 string of length 32 to 44. -/
theorem isValidSolanaAddress_spec :
    isValidSolanaAddress [] = false ∧
    (∀ s : List Char, leadsWith ['0', 'x'] s = true → isValidSolanaAddress s = false) ∧
    (∀ s : List Char, hasSubstr ['.'] s = true → isValidSolanaAddress s = false) ∧
    (∀ s : List Char, hasSubstr ['i', 'b', 'c', '/'] s = true →
      isValidSolanaAddress s = false) ∧
    (∀ s : List Char, s.length < 32 ∨ s.length > 44 → isValidSolanaAddress s = false) ∧
    (∀ (s : List Char) (c : Char), c ∈ s → isBase58Char c = false →
      isValidSolanaAddress s = false) ∧
    (∀ s : List Char, hasSubstr (List.replicate 40 '0') s = true →
      isValidSolanaAddress s = false) ∧
    (∀ s : List Char, (∀ c ∈ s, isBase58Char c = true) →
      32 ≤ s.length → s.length ≤ 44 → isValidSolanaAddress s = true) := by
  refine ⟨rfl, ?_, ?_, ?_, ?_, ?_, ?_, ?_⟩
  · intro s hs
    unfold isValidSolanaAddress
    split_ifs <;> rfl
  · intro s hs
    unfold isValidSolanaAddress
    split_ifs <;> rfl
  · intro s hs
    unfold isValidSolanaAddress
    split_ifs <;> rfl
  · intro s hs
    unfold isValidSolanaAddress
    split_ifs <;> rfl
  · intro s c hc hbad
    unfold isValidSolanaAddress
    split_ifs with h1 h2 h3 h4 h5 h6 h7 <;> try rfl
    exfalso
    have hall : s.all isBase58Char = true := by
      cases hval : s.all isBase58Char with
      | true => rfl
      | false => exact absurd hval h6
    rw [List.all_eq_true] at hall
    rw [hall c hc] at hbad
    cases hbad
  · intro s hs
    unfold isValidSolanaAddress
    split_ifs <;> rfl
  · intro s hall h32 h44
    unfold isValidSolanaAddress
    split_ifs with h1 h2 h3 h4 h5 h6 h7 <;> try rfl
    · exfalso; subst h1; simp at h32
    · exfalso
      have h0 : ('0' : Char) ∈ s := leadsWith_mem _ _ h2 '0' (by simp)
      have := hall '0' h0
      rw [show isBase58Char '0' = false from rfl] at this
      cases this
    · exfalso
      have h0 : ('.' : Char) ∈ s := hasSubstr_mem _ _ h3 '.' (by simp)
      have := hall '.' h0
      rw [show isBase58Char '.' = false from rfl] at this
      cases this
    · exfalso
      have h0 : ('/' : Char) ∈ s := hasSubstr_mem _ _ h4 '/' (by simp)
      have := hall '/' h0
      rw [show isBase58Char '/' = false from rfl] at this
      cases this
    · exfalso; omega
    · exfalso
      rw [List.all_eq_true.mpr hall] at h6
      cases h6
    · exfalso
      have h0 : ('0' : Char) ∈ s :=
        hasSubstr_mem _ _ h7 '0' (List.mem_replicate.mpr ⟨by norm_num, rfl⟩)
      have := hall '0' h0
      rw [show isBase58Char '0' = false from rfl] at this
      cases this

/-- Claim C7 witness: a canonical well-formed base58 address of length 43 is
accepted. -/
theorem isValidSolanaAddress_spec_witness :
    isValidSolanaAddress "So11111111111111111111111111111111111111112".data = true :=
  isValidSolanaAddress_spec.2.2.2.2.2.2.2 _ (by decide) (by decide) (by decide)
